import Mathlib

/-!
Verification of the `SecureSavedObjectsClient` authorization gateway
(`x-pack/plugins/security/server/lib/saved_objects_client/secure_saved_objects_client.js`).

The gateway wraps two repositories (a privileged "internal" repository and a
legacy request-scoped repository) behind seven public CRUD-shaped operations.
Every operation funnels through the private `_execute` routine, which derives
one action per object type, calls the external privilege checker, branches on
its tri-state result, emits audit events, and either forwards to a repository
or raises an error.

The embedding is executable: each public call returns the ordered list of
observable events (checker invocation, audit emissions, repository
invocations) together with an `Except` outcome, so that properties about
"what is invoked, how often, and in which order" are statements about a
concrete event trace.
-/

namespace SecureSavedObjects

/-- A JavaScript value used as a saved-object type: a string, or `undefined`
(the `find` operation passes `options.type`, which may be absent). -/
inductive JsVal where
  | str (s : String)
  | undef
  deriving DecidableEq, Repr

/-- String conversion used by `Array.prototype.join`: `undefined` renders as
the empty string, a string renders as itself. -/
def JsVal.joinStr : JsVal → String
  | .str s => s
  | .undef => ""

/-- Whether the value is `undefined`. -/
def JsVal.isUndef : JsVal → Bool
  | .str _ => false
  | .undef => true

/-- An input object of a bulk operation: only its `type` field is inspected by
the gateway; the remaining fields are opaque. -/
structure SObj where
  type : JsVal
  rest : String
  deriving DecidableEq, Repr

/-- Options of the `find` operation: only `options.type` is inspected by the
gateway (absent property reads as `undefined`); the rest is opaque. -/
structure FindOptions where
  type : JsVal
  rest : String
  deriving DecidableEq, Repr

/-- The nested `error` object of a thrown checker error's `body`, as read by
`get(error, 'body.error', {})`: it may or may not carry a `reason` string. -/
structure BodyError where
  reason : Option String
  deriving DecidableEq, Repr

/-- An error thrown by the privilege checker: possibly a nested `body.error`
object, plus opaque content identifying the original error. -/
structure JsError where
  bodyError : Option BodyError
  tag : String
  deriving DecidableEq, Repr

/-- Modelled from the spec: the `CHECK_PRIVILEGES_RESULT` enum is imported
from `../authorization/check_privileges`, which is not part of the sources;
the spec describes it as the tri-state {AUTHORIZED, LEGACY, UNAUTHORIZED}.
`other` stands for any result value outside the tri-state (the `default`
branch of the switch in `_execute`). -/
inductive CheckPrivilegesResult where
  | AUTHORIZED
  | LEGACY
  | UNAUTHORIZED
  | other (value : String)
  deriving DecidableEq, Repr

/-- The successful response of the privilege checker:
`{ result, username, missing }` as destructured in `_execute`. -/
structure CheckResponse where
  result : CheckPrivilegesResult
  username : String
  missing : List String
  deriving DecidableEq, Repr

/-- The errors the gateway itself can surface, over a delegate-error type `ε`:
- `decorateGeneralError e r`: `this.errors.decorateGeneralError(error, reason)`
  wrapping the original checker error `e` with optional reason `r`;
- `decorateForbiddenError msg`: `this.errors.decorateForbiddenError(new Error(msg))`;
- `jsError msg`: a plain `new Error(msg)` not passed through the error factory
  (the defensive `default` branch);
- `delegateError e`: an error thrown by the selected repository, carried
  through unchanged. -/
inductive GatewayError (ε : Type) where
  | decorateGeneralError (original : JsError) (reason : Option String)
  | decorateForbiddenError (message : String)
  | jsError (message : String)
  | delegateError (e : ε)
  deriving DecidableEq, Repr

/-- A repository: the common CRUD surface of the internal (privileged) and
`callWithRequest` (legacy) repositories. Attributes, ids and options are
opaque strings; each method may return a value of type `ρ` or throw `ε`. -/
structure Repository (ε ρ : Type) where
  create : JsVal → String → String → Except ε ρ
  bulkCreate : List SObj → String → Except ε ρ
  delete : JsVal → String → String → Except ε ρ
  find : FindOptions → Except ε ρ
  bulkGet : List SObj → String → Except ε ρ
  get : JsVal → String → String → Except ε ρ
  update : JsVal → String → String → String → Except ε ρ

/-- The argument bundle of one public call (also the audit `args` context the
gateway passes to the audit logger). One constructor per public operation. -/
inductive Args where
  | create (type : JsVal) (attributes : String) (options : String)
  | bulkCreate (objects : List SObj) (options : String)
  | delete (type : JsVal) (id : String) (options : String)
  | find (options : FindOptions)
  | bulkGet (objects : List SObj) (options : String)
  | get (type : JsVal) (id : String) (options : String)
  | update (type : JsVal) (id : String) (attributes : String) (options : String)
  deriving DecidableEq, Repr

/-- One observable side effect of a call, in emission order:
the checker invocation (with the action list it was given), the two audit
notifications (with their full payloads), and the invocation of either
repository. -/
inductive Event where
  | checkPrivilegesCalled (actions : List String)
  | auditSuccess (username : String) (action : String) (types : List JsVal) (args : Args)
  | auditFailure (username : String) (action : String) (types : List JsVal)
      (missing : List String) (args : Args)
  | invokeInternalRepository
  | invokeCallWithRequestRepository
  deriving DecidableEq, Repr

/-- The gateway with its injected collaborators: the two repositories, the
privilege checker (which may throw a `JsError`), and the action registry
`getSavedObjectAction : (type, operation) → action identifier`. -/
structure SecureSavedObjectsClient (ε ρ : Type) where
  internalRepository : Repository ε ρ
  callWithRequestRepository : Repository ε ρ
  checkPrivileges : List String → Except JsError CheckResponse
  getSavedObjectAction : JsVal → String → String

/-- lodash `uniq` with an explicit seen-accumulator: keeps the first
occurrence of each element, drops later duplicates. -/
def uniqAux (seen : List JsVal) : List JsVal → List JsVal
  | [] => []
  | x :: xs => if x ∈ seen then uniqAux seen xs else x :: uniqAux (x :: seen) xs

/-- lodash `uniq`: distinct elements in first-occurrence order. -/
def uniq (l : List JsVal) : List JsVal := uniqAux [] l

/-- Lexicographic comparison of code-unit sequences, the order the ECMAScript
default sort comparator applies to strings. -/
def natListLe : List Nat → List Nat → Bool
  | [], _ => true
  | _ :: _, [] => false
  | a :: as, b :: bs => if a < b then true else if b < a then false else natListLe as bs

/-- The code units of a string. -/
def codeUnits (s : String) : List Nat := s.data.map Char.toNat

/-- The string order used by `Array.prototype.sort` without a comparator:
lexicographic on code units. -/
def jsLe (a b : String) : Prop := natListLe (codeUnits a) (codeUnits b) = true

instance : DecidableRel jsLe := fun a b =>
  inferInstanceAs (Decidable (natListLe (codeUnits a) (codeUnits b) = true))

/-- `[...l].sort().join(',')` for an array of strings: lexicographic sort then
comma-join. -/
def sortJoin (l : List String) : String :=
  String.intercalate "," (l.insertionSort jsLe)

/-- `[...types].sort().join(',')` for the types array, which may contain
`undefined` (the `find` operation): the ECMAScript default sort places all
`undefined` elements last and compares the rest as strings, and `join`
renders `undefined` as the empty string. -/
def sortJoinTypes (types : List JsVal) : String :=
  String.intercalate ","
    ((((types.filter (fun v => !v.isUndef)).map JsVal.joinStr).insertionSort jsLe)
      ++ (types.filter (fun v => v.isUndef)).map JsVal.joinStr)

/-- `reason` extraction in `_checkSavedObjectPrivileges`:
`const { reason } = get(error, 'body.error', {})`. -/
def getBodyErrorReason (e : JsError) : Option String :=
  match e.bodyError with
  | some be => be.reason
  | none => none

/-- `_checkSavedObjectPrivileges(actions)`: forward to the injected checker;
if it throws, re-throw `decorateGeneralError(error, reason)`. -/
def checkSavedObjectPrivileges (c : SecureSavedObjectsClient ε ρ)
    (actions : List String) : Except (GatewayError ε) CheckResponse :=
  match c.checkPrivileges actions with
  | .ok r => .ok r
  | .error e => .error (.decorateGeneralError e (getBodyErrorReason e))

/-- The `typeOrTypes` first argument of `_execute`: either a plain value or an
array (`Array.isArray` distinguishes them). -/
inductive TypeOrTypes where
  | single (v : JsVal)
  | array (l : List JsVal)
  deriving DecidableEq, Repr

/-- Type normalization at the top of `_execute`:
`Array.isArray(typeOrTypes) ? typeOrTypes : [typeOrTypes]`. -/
def TypeOrTypes.toList : TypeOrTypes → List JsVal
  | .single v => [v]
  | .array l => l

/-- `_execute(typeOrTypes, action, args, fn)`: normalize the types, derive one
action per type, call the checker (via `_checkSavedObjectPrivileges`), then
branch on the result: AUTHORIZED audits success and runs `fn` against the
internal repository; LEGACY runs `fn` against the `callWithRequest`
repository with no audit; UNAUTHORIZED audits failure and throws the
Forbidden error with the sorted, comma-joined message; any other result
throws a plain `Unexpected result from hasPrivileges` error. The returned
pair is the emitted event trace and the call's outcome. -/
def execute (c : SecureSavedObjectsClient ε ρ) (typeOrTypes : TypeOrTypes)
    (action : String) (args : Args) (fn : Repository ε ρ → Except ε ρ) :
    List Event × Except (GatewayError ε) ρ :=
  let types := typeOrTypes.toList
  let actions := types.map (fun type => c.getSavedObjectAction type action)
  match checkSavedObjectPrivileges c actions with
  | .error err => ([.checkPrivilegesCalled actions], .error err)
  | .ok resp =>
    match resp.result with
    | .AUTHORIZED =>
      ([.checkPrivilegesCalled actions,
        .auditSuccess resp.username action types args,
        .invokeInternalRepository],
        (fn c.internalRepository).mapError GatewayError.delegateError)
    | .LEGACY =>
      ([.checkPrivilegesCalled actions, .invokeCallWithRequestRepository],
        (fn c.callWithRequestRepository).mapError GatewayError.delegateError)
    | .UNAUTHORIZED =>
      ([.checkPrivilegesCalled actions,
        .auditFailure resp.username action types resp.missing args],
        .error (.decorateForbiddenError
          ("Unable to " ++ action ++ " " ++ sortJoinTypes types ++ ", missing "
            ++ sortJoin resp.missing)))
    | .other _ =>
      ([.checkPrivilegesCalled actions],
        .error (.jsError "Unexpected result from hasPrivileges"))

/-- `create(type, attributes = {}, options = {})`. -/
def SecureSavedObjectsClient.create (c : SecureSavedObjectsClient ε ρ)
    (type : JsVal) (attributes : String := "{}") (options : String := "{}") :
    List Event × Except (GatewayError ε) ρ :=
  execute c (.single type) "create" (.create type attributes options)
    (fun repository => repository.create type attributes options)

/-- `bulkCreate(objects, options = {})`: the types are
`uniq(objects.map(o => o.type))`. -/
def SecureSavedObjectsClient.bulkCreate (c : SecureSavedObjectsClient ε ρ)
    (objects : List SObj) (options : String := "{}") :
    List Event × Except (GatewayError ε) ρ :=
  execute c (.array (uniq (objects.map SObj.type))) "bulk_create"
    (.bulkCreate objects options)
    (fun repository => repository.bulkCreate objects options)

/-- `delete(type, id, options = {})`. -/
def SecureSavedObjectsClient.delete (c : SecureSavedObjectsClient ε ρ)
    (type : JsVal) (id : String) (options : String := "{}") :
    List Event × Except (GatewayError ε) ρ :=
  execute c (.single type) "delete" (.delete type id options)
    (fun repository => repository.delete type id options)

/-- `find(options = {})`: the type argument is `options.type`, which may be
`undefined`. -/
def SecureSavedObjectsClient.find (c : SecureSavedObjectsClient ε ρ)
    (options : FindOptions) : List Event × Except (GatewayError ε) ρ :=
  execute c (.single options.type) "find" (.find options)
    (fun repository => repository.find options)

/-- `bulkGet(objects = [], options = {})`: the types are
`uniq(objects.map(o => o.type))`. -/
def SecureSavedObjectsClient.bulkGet (c : SecureSavedObjectsClient ε ρ)
    (objects : List SObj := []) (options : String := "{}") :
    List Event × Except (GatewayError ε) ρ :=
  execute c (.array (uniq (objects.map SObj.type))) "bulk_get"
    (.bulkGet objects options)
    (fun repository => repository.bulkGet objects options)

/-- `get(type, id, options = {})`. -/
def SecureSavedObjectsClient.get (c : SecureSavedObjectsClient ε ρ)
    (type : JsVal) (id : String) (options : String := "{}") :
    List Event × Except (GatewayError ε) ρ :=
  execute c (.single type) "get" (.get type id options)
    (fun repository => repository.get type id options)

/-- `update(type, id, attributes, options = {})`. -/
def SecureSavedObjectsClient.update (c : SecureSavedObjectsClient ε ρ)
    (type : JsVal) (id : String) (attributes : String)
    (options : String := "{}") : List Event × Except (GatewayError ε) ρ :=
  execute c (.single type) "update" (.update type id attributes options)
    (fun repository => repository.update type id attributes options)

/-- Dispatch of one public call from its argument bundle: "for every public
operation" quantifies over `Args`. -/
def callOp (c : SecureSavedObjectsClient ε ρ) :
    Args → List Event × Except (GatewayError ε) ρ
  | .create t a o => c.create t a o
  | .bulkCreate objs o => c.bulkCreate objs o
  | .delete t i o => c.delete t i o
  | .find o => c.find o
  | .bulkGet objs o => c.bulkGet objs o
  | .get t i o => c.get t i o
  | .update t i a o => c.update t i a o

/-- The operation-kind string each public method passes to `_execute`. -/
def opKind : Args → String
  | .create .. => "create"
  | .bulkCreate .. => "bulk_create"
  | .delete .. => "delete"
  | .find .. => "find"
  | .bulkGet .. => "bulk_get"
  | .get .. => "get"
  | .update .. => "update"

/-- The `typeOrTypes` argument each public method passes to `_execute`. -/
def opTypeOrTypes : Args → TypeOrTypes
  | .create t _ _ => .single t
  | .bulkCreate objs _ => .array (uniq (objs.map SObj.type))
  | .delete t _ _ => .single t
  | .find o => .single o.type
  | .bulkGet objs _ => .array (uniq (objs.map SObj.type))
  | .get t _ _ => .single t
  | .update t _ _ _ => .single t

/-- The normalized types list of a call. -/
def opTypes (a : Args) : List JsVal := (opTypeOrTypes a).toList

/-- The action list of a call: one registry lookup per normalized type. -/
def opActions (c : SecureSavedObjectsClient ε ρ) (a : Args) : List String :=
  (opTypes a).map (fun type => c.getSavedObjectAction type (opKind a))

/-- The delegate closure each public method passes to `_execute`, applied to a
repository: which repository method is called, with which arguments. -/
def delegateCall (r : Repository ε ρ) : Args → Except ε ρ
  | .create t a o => r.create t a o
  | .bulkCreate objs o => r.bulkCreate objs o
  | .delete t i o => r.delete t i o
  | .find o => r.find o
  | .bulkGet objs o => r.bulkGet objs o
  | .get t i o => r.get t i o
  | .update t i a o => r.update t i a o

/-- Event classifiers over the trace. -/
def Event.isCheck : Event → Bool
  | .checkPrivilegesCalled _ => true
  | _ => false

/-- Whether the event is an audit-success emission. -/
def Event.isAuditSuccess : Event → Bool
  | .auditSuccess .. => true
  | _ => false

/-- Whether the event is an audit-failure emission. -/
def Event.isAuditFailure : Event → Bool
  | .auditFailure .. => true
  | _ => false

/-- Whether the event is an audit emission (success or failure). -/
def Event.isAudit : Event → Bool
  | .auditSuccess .. => true
  | .auditFailure .. => true
  | _ => false

/-- Whether the event is an invocation of either repository. -/
def Event.isRepoInvoke : Event → Bool
  | .invokeInternalRepository => true
  | .invokeCallWithRequestRepository => true
  | _ => false

/-- The action list `execute` derives from a `typeOrTypes` argument. -/
def execActions (c : SecureSavedObjectsClient ε ρ) (t : TypeOrTypes)
    (k : String) : List String :=
  t.toList.map (fun type => c.getSavedObjectAction type k)

theorem opActions_eq (c : SecureSavedObjectsClient ε ρ) (a : Args) :
    execActions c (opTypeOrTypes a) (opKind a) = opActions c a := rfl

theorem callOp_eq (c : SecureSavedObjectsClient ε ρ) (a : Args) :
    callOp c a = execute c (opTypeOrTypes a) (opKind a) a
      (fun r => delegateCall r a) := by
  cases a <;> rfl

theorem execute_eq (c : SecureSavedObjectsClient ε ρ) (t : TypeOrTypes)
    (k : String) (g : Args) (fn : Repository ε ρ → Except ε ρ) :
    execute c t k g fn =
      match checkSavedObjectPrivileges c (execActions c t k) with
      | .error err => ([.checkPrivilegesCalled (execActions c t k)], .error err)
      | .ok resp =>
        match resp.result with
        | .AUTHORIZED =>
          ([.checkPrivilegesCalled (execActions c t k),
            .auditSuccess resp.username k t.toList g,
            .invokeInternalRepository],
            (fn c.internalRepository).mapError GatewayError.delegateError)
        | .LEGACY =>
          ([.checkPrivilegesCalled (execActions c t k),
            .invokeCallWithRequestRepository],
            (fn c.callWithRequestRepository).mapError GatewayError.delegateError)
        | .UNAUTHORIZED =>
          ([.checkPrivilegesCalled (execActions c t k),
            .auditFailure resp.username k t.toList resp.missing g],
            .error (.decorateForbiddenError
              ("Unable to " ++ k ++ " " ++ sortJoinTypes t.toList ++ ", missing "
                ++ sortJoin resp.missing)))
        | .other _ =>
          ([.checkPrivilegesCalled (execActions c t k)],
            .error (.jsError "Unexpected result from hasPrivileges")) := rfl

theorem execute_checker_error (c : SecureSavedObjectsClient ε ρ)
    (t : TypeOrTypes) (k : String) (g : Args) (fn : Repository ε ρ → Except ε ρ)
    (e : JsError) (h : c.checkPrivileges (execActions c t k) = .error e) :
    execute c t k g fn =
      ([.checkPrivilegesCalled (execActions c t k)],
        .error (.decorateGeneralError e (getBodyErrorReason e))) := by
  rw [execute_eq, checkSavedObjectPrivileges, h]

theorem execute_ok (c : SecureSavedObjectsClient ε ρ)
    (t : TypeOrTypes) (k : String) (g : Args) (fn : Repository ε ρ → Except ε ρ)
    (resp : CheckResponse)
    (h : c.checkPrivileges (execActions c t k) = .ok resp) :
    execute c t k g fn =
      match resp.result with
      | .AUTHORIZED =>
        ([.checkPrivilegesCalled (execActions c t k),
          .auditSuccess resp.username k t.toList g,
          .invokeInternalRepository],
          (fn c.internalRepository).mapError GatewayError.delegateError)
      | .LEGACY =>
        ([.checkPrivilegesCalled (execActions c t k),
          .invokeCallWithRequestRepository],
          (fn c.callWithRequestRepository).mapError GatewayError.delegateError)
      | .UNAUTHORIZED =>
        ([.checkPrivilegesCalled (execActions c t k),
          .auditFailure resp.username k t.toList resp.missing g],
          .error (.decorateForbiddenError
            ("Unable to " ++ k ++ " " ++ sortJoinTypes t.toList ++ ", missing "
              ++ sortJoin resp.missing)))
      | .other _ =>
        ([.checkPrivilegesCalled (execActions c t k)],
          .error (.jsError "Unexpected result from hasPrivileges")) := by
  rw [execute_eq, checkSavedObjectPrivileges, h]

theorem uniqAux_sublist (seen l : List JsVal) : (uniqAux seen l).Sublist l := by
  induction l generalizing seen with
  | nil => simp [uniqAux]
  | cons x xs ih =>
    simp only [uniqAux]
    split
    · exact (ih seen).cons x
    · exact (ih (x :: seen)).cons₂ x

theorem mem_uniqAux (seen l : List JsVal) (a : JsVal) :
    a ∈ uniqAux seen l ↔ a ∈ l ∧ a ∉ seen := by
  induction l generalizing seen with
  | nil => simp [uniqAux]
  | cons x xs ih =>
    simp only [uniqAux]
    split
    · rename_i hx
      simp only [ih seen, List.mem_cons]
      by_cases hax : a = x
      · subst hax; tauto
      · tauto
    · rename_i hx
      simp only [List.mem_cons, ih (x :: seen)]
      by_cases hax : a = x
      · subst hax; tauto
      · tauto

theorem nodup_uniqAux (seen l : List JsVal) : (uniqAux seen l).Nodup := by
  induction l generalizing seen with
  | nil => simp [uniqAux]
  | cons x xs ih =>
    simp only [uniqAux]
    split
    · exact ih seen
    · rw [List.nodup_cons]
      refine ⟨fun hmem => ?_, ih (x :: seen)⟩
      rw [mem_uniqAux] at hmem
      exact hmem.2 (List.mem_cons_self x seen)

theorem mem_uniq (l : List JsVal) (a : JsVal) : a ∈ uniq l ↔ a ∈ l := by
  simp [uniq, mem_uniqAux]

theorem nodup_uniq (l : List JsVal) : (uniq l).Nodup := nodup_uniqAux [] l

theorem uniq_sublist (l : List JsVal) : (uniq l).Sublist l := uniqAux_sublist [] l

theorem natListLe_total : ∀ a b : List Nat, natListLe a b = true ∨ natListLe b a = true
  | [], _ => Or.inl rfl
  | _ :: _, [] => Or.inr rfl
  | x :: xs, y :: ys => by
    by_cases hxy : x < y
    · exact Or.inl (by simp [natListLe, hxy])
    · by_cases hyx : y < x
      · exact Or.inr (by simp [natListLe, hyx])
      · rcases natListLe_total xs ys with h | h
        · exact Or.inl (by simp [natListLe, hxy, hyx, h])
        · exact Or.inr (by simp [natListLe, hxy, hyx, h])

theorem natListLe_trans : ∀ a b c : List Nat, natListLe a b = true →
    natListLe b c = true → natListLe a c = true
  | [], _, _, _, _ => rfl
  | _ :: _, [], _, hab, _ => by simp [natListLe] at hab
  | _ :: _, _ :: _, [], _, hbc => by simp [natListLe] at hbc
  | x :: xs, y :: ys, z :: zs, hab, hbc => by
    simp only [natListLe] at hab hbc ⊢
    by_cases hxy : x < y
    · by_cases hyz : y < z
      · simp [show x < z from hxy.trans hyz]
      · rw [if_neg hyz] at hbc
        by_cases hzy : z < y
        · rw [if_pos hzy] at hbc
          exact absurd hbc (by simp)
        · have hyz2 : y = z := by omega
          subst hyz2
          simp [hxy]
    · rw [if_neg hxy] at hab
      by_cases hyx : y < x
      · rw [if_pos hyx] at hab
        exact absurd hab (by simp)
      · have hxy2 : x = y := by omega
        subst hxy2
        rw [if_neg hxy] at hab
        by_cases hxz : x < z
        · simp [hxz]
        · rw [if_neg hxz] at hbc ⊢
          by_cases hzx : z < x
          · rw [if_pos hzx] at hbc
            exact absurd hbc (by simp)
          · rw [if_neg hzx] at hbc ⊢
            exact natListLe_trans xs ys zs hab hbc

theorem natListLe_antisymm : ∀ a b : List Nat, natListLe a b = true →
    natListLe b a = true → a = b
  | [], [], _, _ => rfl
  | [], _ :: _, _, hba => by simp [natListLe] at hba
  | _ :: _, [], hab, _ => by simp [natListLe] at hab
  | x :: xs, y :: ys, hab, hba => by
    simp only [natListLe] at hab hba
    by_cases hxy : x < y
    · rw [if_neg (by omega : ¬y < x), if_pos hxy] at hba
      exact absurd hba (by simp)
    · by_cases hyx : y < x
      · rw [if_neg hxy, if_pos hyx] at hab
        exact absurd hab (by simp)
      · have hxy2 : x = y := by omega
        subst hxy2
        rw [if_neg hxy, if_neg hyx] at hab hba
        rw [natListLe_antisymm xs ys hab hba]

theorem jsLe_total (a b : String) : jsLe a b ∨ jsLe b a :=
  natListLe_total (codeUnits a) (codeUnits b)

theorem jsLe_trans (a b c : String) (h1 : jsLe a b) (h2 : jsLe b c) : jsLe a c :=
  natListLe_trans (codeUnits a) (codeUnits b) (codeUnits c) h1 h2

theorem jsLe_antisymm (a b : String) (h1 : jsLe a b) (h2 : jsLe b a) : a = b := by
  have h := natListLe_antisymm (codeUnits a) (codeUnits b) h1 h2
  have hinj : Function.Injective Char.toNat := fun c d hc =>
    Char.eq_of_val_eq (UInt32.ext hc)
  have hdata : a.data = b.data := List.map_injective_iff.mpr hinj h
  cases a
  cases b
  exact congrArg String.mk hdata

instance : IsTotal String jsLe := ⟨jsLe_total⟩

instance : IsTrans String jsLe := ⟨jsLe_trans⟩

instance : IsAntisymm String jsLe := ⟨jsLe_antisymm⟩

theorem sortJoin_perm (l₁ l₂ : List String) (h : l₁.Perm l₂) :
    sortJoin l₁ = sortJoin l₂ := by
  unfold sortJoin
  congr 1
  refine List.eq_of_perm_of_sorted ?_ (List.sorted_insertionSort _ l₁)
    (List.sorted_insertionSort _ l₂)
  exact (List.perm_insertionSort _ l₁).trans
    (h.trans (List.perm_insertionSort _ l₂).symm)

theorem undefPart_replicate (l : List JsVal) :
    (l.filter (fun v => v.isUndef)).map JsVal.joinStr
      = List.replicate ((l.filter (fun v => v.isUndef)).length) "" := by
  rw [List.eq_replicate_iff]
  refine ⟨by simp, fun b hb => ?_⟩
  simp only [List.mem_map, List.mem_filter] at hb
  obtain ⟨v, ⟨_, hu⟩, rfl⟩ := hb
  cases v with
  | str s => simp [JsVal.isUndef] at hu
  | undef => rfl

theorem sortJoinTypes_perm (l₁ l₂ : List JsVal) (h : l₁.Perm l₂) :
    sortJoinTypes l₁ = sortJoinTypes l₂ := by
  unfold sortJoinTypes
  congr 1
  have hdefs : ((l₁.filter (fun v => !v.isUndef)).map JsVal.joinStr).Perm
      ((l₂.filter (fun v => !v.isUndef)).map JsVal.joinStr) :=
    (h.filter _).map _
  have h1 : ((l₁.filter (fun v => !v.isUndef)).map JsVal.joinStr).insertionSort jsLe
      = ((l₂.filter (fun v => !v.isUndef)).map JsVal.joinStr).insertionSort jsLe := by
    refine List.eq_of_perm_of_sorted ?_ (List.sorted_insertionSort _ _)
      (List.sorted_insertionSort _ _)
    exact (List.perm_insertionSort _ _).trans
      (hdefs.trans (List.perm_insertionSort _ _).symm)
  have h2 : (l₁.filter (fun v => v.isUndef)).length
      = (l₂.filter (fun v => v.isUndef)).length := (h.filter _).length_eq
  rw [h1, undefPart_replicate, undefPart_replicate, h2]

theorem execute_head (c : SecureSavedObjectsClient ε ρ) (t : TypeOrTypes)
    (k : String) (g : Args) (fn : Repository ε ρ → Except ε ρ) :
    (execute c t k g fn).1.head?
      = some (.checkPrivilegesCalled (execActions c t k)) := by
  rw [execute_eq]
  cases checkSavedObjectPrivileges c (execActions c t k) with
  | error e => rfl
  | ok resp =>
    obtain ⟨res, u, m⟩ := resp
    cases res <;> rfl

theorem execute_countCheck (c : SecureSavedObjectsClient ε ρ) (t : TypeOrTypes)
    (k : String) (g : Args) (fn : Repository ε ρ → Except ε ρ) :
    (execute c t k g fn).1.countP Event.isCheck = 1 := by
  rw [execute_eq]
  cases checkSavedObjectPrivileges c (execActions c t k) with
  | error e => rfl
  | ok resp =>
    obtain ⟨res, u, m⟩ := resp
    cases res <;> rfl

theorem execute_countAudit_le (c : SecureSavedObjectsClient ε ρ)
    (t : TypeOrTypes) (k : String) (g : Args)
    (fn : Repository ε ρ → Except ε ρ) :
    (execute c t k g fn).1.countP Event.isAudit ≤ 1 := by
  rw [execute_eq]
  cases checkSavedObjectPrivileges c (execActions c t k) with
  | error e => simp [List.countP, List.countP.go, Event.isAudit]
  | ok resp =>
    obtain ⟨res, u, m⟩ := resp
    cases res <;> simp [List.countP, List.countP.go, Event.isAudit]

/-- A concrete repository whose methods name themselves, used to instantiate
the generic theorems on closed inputs. -/
def demoRepo (tag : String) : Repository String String where
  create := fun _ _ _ => .ok (tag ++ "-create")
  bulkCreate := fun _ _ => .ok (tag ++ "-bulkCreate")
  delete := fun _ _ _ => .ok (tag ++ "-delete")
  find := fun _ => .ok (tag ++ "-find")
  bulkGet := fun _ _ => .ok (tag ++ "-bulkGet")
  get := fun _ _ _ => .ok (tag ++ "-get")
  update := fun _ _ _ _ => .ok (tag ++ "-update")

/-- A concrete gateway over `demoRepo`s with a given privilege checker. -/
def demoClient (r : List String → Except JsError CheckResponse) :
    SecureSavedObjectsClient String String where
  internalRepository := demoRepo "internal"
  callWithRequestRepository := demoRepo "legacy"
  checkPrivileges := r
  getSavedObjectAction := fun t k => "action:saved_objects/" ++ t.joinStr ++ "/" ++ k

/-- C1: for every public operation, an UNAUTHORIZED checker result means the
trace is exactly the checker invocation followed by one audit-failure event
(so neither repository delegate is invoked), and the call fails with the
Forbidden error `Unable to <operation kind> <sorted types>, missing <sorted
missing actions>`; the last conjunct shows the message is invariant under any
reordering of the types and of the missing actions. -/
theorem unauthorized_blocks_delegates (c : SecureSavedObjectsClient ε ρ)
    (a : Args) (username : String) (missing : List String)
    (h : c.checkPrivileges (opActions c a)
      = .ok ⟨.UNAUTHORIZED, username, missing⟩) :
    callOp c a =
      ([.checkPrivilegesCalled (opActions c a),
        .auditFailure username (opKind a) (opTypes a) missing a],
        .error (.decorateForbiddenError
          ("Unable to " ++ opKind a ++ " " ++ sortJoinTypes (opTypes a)
            ++ ", missing " ++ sortJoin missing)))
    ∧ (callOp c a).1.countP Event.isAuditFailure = 1
    ∧ (∀ e ∈ (callOp c a).1, e.isRepoInvoke = false)
    ∧ (∀ types2 missing2, (opTypes a).Perm types2 → missing.Perm missing2 →
        "Unable to " ++ opKind a ++ " " ++ sortJoinTypes types2
            ++ ", missing " ++ sortJoin missing2
          = "Unable to " ++ opKind a ++ " " ++ sortJoinTypes (opTypes a)
            ++ ", missing " ++ sortJoin missing) := by
  have hmain : callOp c a =
      ([.checkPrivilegesCalled (opActions c a),
        .auditFailure username (opKind a) (opTypes a) missing a],
        .error (.decorateForbiddenError
          ("Unable to " ++ opKind a ++ " " ++ sortJoinTypes (opTypes a)
            ++ ", missing " ++ sortJoin missing))) := by
    rw [callOp_eq]
    exact execute_ok c (opTypeOrTypes a) (opKind a) a (fun r => delegateCall r a)
      ⟨.UNAUTHORIZED, username, missing⟩ h
  refine ⟨hmain, ?_, ?_, ?_⟩
  · rw [hmain]; rfl
  · rw [hmain]
    intro e he
    simp only [List.mem_cons, List.not_mem_nil, or_false] at he
    rcases he with rfl | rfl <;> rfl
  · intro types2 missing2 ht hm
    rw [sortJoinTypes_perm (opTypes a) types2 ht, sortJoin_perm missing missing2 hm]

theorem unauthorized_blocks_delegates_witness :
    (callOp (demoClient (fun _ => .ok ⟨.UNAUTHORIZED, "bob", ["act:y", "act:x"]⟩))
        (.bulkCreate [⟨.str "b", "x"⟩, ⟨.str "a", "y"⟩, ⟨.str "b", "z"⟩] "{}")).2
      = .error (.decorateForbiddenError
          "Unable to bulk_create a,b, missing act:x,act:y")
    ∧ (callOp (demoClient (fun _ => .ok ⟨.UNAUTHORIZED, "bob", ["act:y", "act:x"]⟩))
        (.bulkCreate [⟨.str "b", "x"⟩, ⟨.str "a", "y"⟩, ⟨.str "b", "z"⟩] "{}")).1.countP
        Event.isAuditFailure = 1 := by
  have h := unauthorized_blocks_delegates
    (demoClient (fun _ => .ok ⟨.UNAUTHORIZED, "bob", ["act:y", "act:x"]⟩))
    (.bulkCreate [⟨.str "b", "x"⟩, ⟨.str "a", "y"⟩, ⟨.str "b", "z"⟩] "{}")
    "bob" ["act:y", "act:x"] rfl
  refine ⟨?_, h.2.1⟩
  rw [h.1]
  rfl

/-- C2: for every public operation, an AUTHORIZED checker result yields the
trace checker-call, audit-success, internal-repository invocation — exactly
one audit-success event, emitted before the privileged (internal) repository
is invoked (witnessed by the trace positions), the legacy repository is never
invoked, and the internal repository's result is returned as-is. -/
theorem authorized_audits_before_internal (c : SecureSavedObjectsClient ε ρ)
    (a : Args) (username : String) (missing : List String)
    (h : c.checkPrivileges (opActions c a)
      = .ok ⟨.AUTHORIZED, username, missing⟩) :
    callOp c a =
      ([.checkPrivilegesCalled (opActions c a),
        .auditSuccess username (opKind a) (opTypes a) a,
        .invokeInternalRepository],
        (delegateCall c.internalRepository a).mapError GatewayError.delegateError)
    ∧ (callOp c a).1.countP Event.isAuditSuccess = 1
    ∧ (∃ i j : Nat, i < j
        ∧ (callOp c a).1[i]?
            = some (Event.auditSuccess username (opKind a) (opTypes a) a)
        ∧ (callOp c a).1[j]? = some Event.invokeInternalRepository)
    ∧ Event.invokeCallWithRequestRepository ∉ (callOp c a).1
    ∧ (∀ v, delegateCall c.internalRepository a = .ok v →
        (callOp c a).2 = .ok v) := by
  have hmain : callOp c a =
      ([.checkPrivilegesCalled (opActions c a),
        .auditSuccess username (opKind a) (opTypes a) a,
        .invokeInternalRepository],
        (delegateCall c.internalRepository a).mapError
          GatewayError.delegateError) := by
    rw [callOp_eq]
    exact execute_ok c (opTypeOrTypes a) (opKind a) a (fun r => delegateCall r a)
      ⟨.AUTHORIZED, username, missing⟩ h
  refine ⟨hmain, ?_, ?_, ?_, ?_⟩
  · rw [hmain]; rfl
  · rw [hmain]
    exact ⟨1, 2, Nat.one_lt_two, rfl, rfl⟩
  · rw [hmain]
    intro hmem
    simp only [List.mem_cons, List.not_mem_nil, or_false] at hmem
    rcases hmem with h1 | h1 | h1 <;> exact Event.noConfusion h1
  · intro v hv
    rw [hmain]
    simp [hv, Except.mapError]

theorem authorized_audits_before_internal_witness :
    (callOp (demoClient (fun _ => .ok ⟨.AUTHORIZED, "alice", []⟩))
        (.get (.str "dashboard") "123" "{}")).1
      = [.checkPrivilegesCalled ["action:saved_objects/dashboard/get"],
        .auditSuccess "alice" "get" [.str "dashboard"]
          (.get (.str "dashboard") "123" "{}"),
        .invokeInternalRepository]
    ∧ (callOp (demoClient (fun _ => .ok ⟨.AUTHORIZED, "alice", []⟩))
        (.get (.str "dashboard") "123" "{}")).2 = .ok "internal-get" := by
  have h := authorized_audits_before_internal
    (demoClient (fun _ => .ok ⟨.AUTHORIZED, "alice", []⟩))
    (.get (.str "dashboard") "123" "{}") "alice" [] rfl
  constructor
  · rw [h.1]
    rfl
  · exact h.2.2.2.2 "internal-get" rfl

/-- C3: for every public operation, a LEGACY checker result yields the trace
checker-call, legacy-repository invocation — no audit event of either kind,
the internal (privileged) repository is never invoked, and the legacy
repository's result is returned as-is. -/
theorem legacy_delegates_without_audit (c : SecureSavedObjectsClient ε ρ)
    (a : Args) (username : String) (missing : List String)
    (h : c.checkPrivileges (opActions c a) = .ok ⟨.LEGACY, username, missing⟩) :
    callOp c a =
      ([.checkPrivilegesCalled (opActions c a),
        .invokeCallWithRequestRepository],
        (delegateCall c.callWithRequestRepository a).mapError
          GatewayError.delegateError)
    ∧ (callOp c a).1.countP Event.isAudit = 0
    ∧ Event.invokeInternalRepository ∉ (callOp c a).1
    ∧ (∀ v, delegateCall c.callWithRequestRepository a = .ok v →
        (callOp c a).2 = .ok v) := by
  have hmain : callOp c a =
      ([.checkPrivilegesCalled (opActions c a),
        .invokeCallWithRequestRepository],
        (delegateCall c.callWithRequestRepository a).mapError
          GatewayError.delegateError) := by
    rw [callOp_eq]
    exact execute_ok c (opTypeOrTypes a) (opKind a) a (fun r => delegateCall r a)
      ⟨.LEGACY, username, missing⟩ h
  refine ⟨hmain, ?_, ?_, ?_⟩
  · rw [hmain]; rfl
  · rw [hmain]
    intro hmem
    simp only [List.mem_cons, List.not_mem_nil, or_false] at hmem
    rcases hmem with h1 | h1 <;> exact Event.noConfusion h1
  · intro v hv
    rw [hmain]
    simp [hv, Except.mapError]

theorem legacy_delegates_without_audit_witness :
    (callOp (demoClient (fun _ => .ok ⟨.LEGACY, "carol", []⟩))
        (.create (.str "index-pattern") "attrs" "{}")).1
      = [.checkPrivilegesCalled ["action:saved_objects/index-pattern/create"],
        .invokeCallWithRequestRepository]
    ∧ (callOp (demoClient (fun _ => .ok ⟨.LEGACY, "carol", []⟩))
        (.create (.str "index-pattern") "attrs" "{}")).2 = .ok "legacy-create" := by
  have h := legacy_delegates_without_audit
    (demoClient (fun _ => .ok ⟨.LEGACY, "carol", []⟩))
    (.create (.str "index-pattern") "attrs" "{}") "carol" [] rfl
  constructor
  · rw [h.1]
    rfl
  · exact h.2.2.2 "legacy-create" rfl

/-- C4: for every public operation, a checker result outside the tri-state
(the `default` switch branch) makes the call fail with the plain
`Unexpected result from hasPrivileges` error, with no repository invocation
(the trace is only the checker call). -/
theorem unexpected_result_no_delegate (c : SecureSavedObjectsClient ε ρ)
    (a : Args) (username : String) (missing : List String) (value : String)
    (h : c.checkPrivileges (opActions c a)
      = .ok ⟨.other value, username, missing⟩) :
    callOp c a =
      ([.checkPrivilegesCalled (opActions c a)],
        .error (.jsError "Unexpected result from hasPrivileges"))
    ∧ (∀ e ∈ (callOp c a).1, e.isRepoInvoke = false) := by
  have hmain : callOp c a =
      ([.checkPrivilegesCalled (opActions c a)],
        .error (.jsError "Unexpected result from hasPrivileges")) := by
    rw [callOp_eq]
    exact execute_ok c (opTypeOrTypes a) (opKind a) a (fun r => delegateCall r a)
      ⟨.other value, username, missing⟩ h
  refine ⟨hmain, ?_⟩
  rw [hmain]
  intro e he
  simp only [List.mem_cons, List.not_mem_nil, or_false] at he
  subst he
  rfl

theorem unexpected_result_no_delegate_witness :
    callOp (demoClient (fun _ => .ok ⟨.other "partially", "dave", []⟩))
        (.delete (.str "visualization") "9" "{}")
      = ([.checkPrivilegesCalled ["action:saved_objects/visualization/delete"]],
        .error (.jsError "Unexpected result from hasPrivileges")) := by
  have h := unexpected_result_no_delegate
    (demoClient (fun _ => .ok ⟨.other "partially", "dave", []⟩))
    (.delete (.str "visualization") "9" "{}") "dave" [] "partially" rfl
  rw [h.1]
  rfl

/-- C5: for both bulk operations the checker receives exactly one action per
distinct type of the input objects: the action list sent to the checker is the
registry image of `uniq` of the input types, and `uniq` is duplicate-free, has
exactly the input types as members, and preserves first-occurrence order (it
is a sublist of the input type sequence); being a function of the input, the
resulting action order is deterministic. -/
theorem bulk_actions_one_per_distinct_type (c : SecureSavedObjectsClient ε ρ)
    (objects : List SObj) (options : String) :
    (c.bulkCreate objects options).1.head?
      = some (.checkPrivilegesCalled ((uniq (objects.map SObj.type)).map
          (fun t => c.getSavedObjectAction t "bulk_create")))
    ∧ (c.bulkGet objects options).1.head?
      = some (.checkPrivilegesCalled ((uniq (objects.map SObj.type)).map
          (fun t => c.getSavedObjectAction t "bulk_get")))
    ∧ (uniq (objects.map SObj.type)).Nodup
    ∧ (∀ t, t ∈ uniq (objects.map SObj.type) ↔ t ∈ objects.map SObj.type)
    ∧ (uniq (objects.map SObj.type)).Sublist (objects.map SObj.type) := by
  refine ⟨?_, ?_, nodup_uniq _, fun t => mem_uniq _ t, uniq_sublist _⟩
  · exact execute_head c (.array (uniq (objects.map SObj.type))) "bulk_create"
      (.bulkCreate objects options)
      (fun repository => repository.bulkCreate objects options)
  · exact execute_head c (.array (uniq (objects.map SObj.type))) "bulk_get"
      (.bulkGet objects options)
      (fun repository => repository.bulkGet objects options)

/-- C6: for every public operation, when the privilege checker itself throws
`e`, the call fails with `decorateGeneralError` wrapping that same `e`: with
the nested `body.error.reason` string when present, with no reason otherwise;
the raw checker error never escapes undecorated (the outcome is always the
decorated wrapper). -/
theorem checker_throw_decorated (c : SecureSavedObjectsClient ε ρ) (a : Args)
    (e : JsError) (h : c.checkPrivileges (opActions c a) = .error e) :
    callOp c a =
      ([.checkPrivilegesCalled (opActions c a)],
        .error (.decorateGeneralError e (getBodyErrorReason e)))
    ∧ (∀ be, e.bodyError = some be →
        (callOp c a).2 = .error (.decorateGeneralError e be.reason))
    ∧ (e.bodyError = none →
        (callOp c a).2 = .error (.decorateGeneralError e none)) := by
  have hmain : callOp c a =
      ([.checkPrivilegesCalled (opActions c a)],
        .error (.decorateGeneralError e (getBodyErrorReason e))) := by
    rw [callOp_eq]
    exact execute_checker_error c (opTypeOrTypes a) (opKind a) a
      (fun r => delegateCall r a) e h
  refine ⟨hmain, ?_, ?_⟩
  · intro be hbe
    rw [hmain]
    simp [getBodyErrorReason, hbe]
  · intro hbe
    rw [hmain]
    simp [getBodyErrorReason, hbe]

theorem checker_throw_decorated_witness :
    (callOp (demoClient (fun _ => .error ⟨some ⟨some "es_reason"⟩, "boom"⟩))
        (.find ⟨.str "space", "q"⟩)).2
      = .error (.decorateGeneralError ⟨some ⟨some "es_reason"⟩, "boom"⟩
          (some "es_reason"))
    ∧ (callOp (demoClient (fun _ => .error ⟨none, "socket hang up"⟩))
        (.find ⟨.str "space", "q"⟩)).2
      = .error (.decorateGeneralError ⟨none, "socket hang up"⟩ none) := by
  constructor
  · exact (checker_throw_decorated
      (demoClient (fun _ => .error ⟨some ⟨some "es_reason"⟩, "boom"⟩))
      (.find ⟨.str "space", "q"⟩) ⟨some ⟨some "es_reason"⟩, "boom"⟩ rfl).2.1
      ⟨some "es_reason"⟩ rfl
  · exact (checker_throw_decorated
      (demoClient (fun _ => .error ⟨none, "socket hang up"⟩))
      (.find ⟨.str "space", "q"⟩) ⟨none, "socket hang up"⟩ rfl).2.2 rfl

/-- C7 counterexample: on a LEGACY outcome no audit event at all is emitted,
so "exactly one Audit Event is emitted per top-level public call" fails on
this concrete call. -/
theorem per_call_one_audit_counterexample :
    ¬ ((callOp (demoClient (fun _ => .ok ⟨.LEGACY, "carol", []⟩))
        (.get (.str "config") "7" "{}")).1.countP Event.isAudit = 1) := by
  decide

/-- C7 (amended): per top-level public call the checker is invoked exactly
once, at most one audit event is emitted (never more than one), and the
checker invocation is the first observable event of the call — no repository
invocation happens before the privilege-check outcome is obtained. -/
theorem per_call_check_once_audit_at_most_once
    (c : SecureSavedObjectsClient ε ρ) (a : Args) :
    (callOp c a).1.countP Event.isCheck = 1
    ∧ (callOp c a).1.countP Event.isAudit ≤ 1
    ∧ (callOp c a).1.head? = some (.checkPrivilegesCalled (opActions c a)) := by
  rw [callOp_eq]
  exact ⟨execute_countCheck c (opTypeOrTypes a) (opKind a) a (fun r => delegateCall r a),
    execute_countAudit_le c (opTypeOrTypes a) (opKind a) a (fun r => delegateCall r a),
    execute_head c (opTypeOrTypes a) (opKind a) a (fun r => delegateCall r a)⟩

/-- A concrete repository whose every method throws, to exercise delegate
error propagation on closed inputs. -/
def failingRepo : Repository String String where
  create := fun _ _ _ => .error "fail-create"
  bulkCreate := fun _ _ => .error "fail-bulkCreate"
  delete := fun _ _ _ => .error "fail-delete"
  find := fun _ => .error "fail-find"
  bulkGet := fun _ _ => .error "fail-bulkGet"
  get := fun _ _ _ => .error "fail-get"
  update := fun _ _ _ _ => .error "fail-update"

/-- A concrete gateway whose repositories always throw. -/
def failingClient (r : List String → Except JsError CheckResponse) :
    SecureSavedObjectsClient String String where
  internalRepository := failingRepo
  callWithRequestRepository := failingRepo
  checkPrivileges := r
  getSavedObjectAction := fun t k => "action:saved_objects/" ++ t.joinStr ++ "/" ++ k

/-- C8: whenever a delegate repository is selected (AUTHORIZED selects the
internal repository, LEGACY the legacy one), the gateway's outcome is exactly
the selected repository's call: a returned value is returned unchanged, and a
thrown error is carried unchanged inside the single `delegateError` injection
— no transformation, no added context, no double-wrapping. -/
theorem delegate_passthrough (c : SecureSavedObjectsClient ε ρ) (a : Args) :
    (∀ username missing,
      c.checkPrivileges (opActions c a) = .ok ⟨.AUTHORIZED, username, missing⟩ →
      (callOp c a).2 = (delegateCall c.internalRepository a).mapError
          GatewayError.delegateError
      ∧ (∀ v, delegateCall c.internalRepository a = .ok v →
          (callOp c a).2 = .ok v)
      ∧ (∀ err, delegateCall c.internalRepository a = .error err →
          (callOp c a).2 = .error (.delegateError err)))
    ∧ (∀ username missing,
      c.checkPrivileges (opActions c a) = .ok ⟨.LEGACY, username, missing⟩ →
      (callOp c a).2 = (delegateCall c.callWithRequestRepository a).mapError
          GatewayError.delegateError
      ∧ (∀ v, delegateCall c.callWithRequestRepository a = .ok v →
          (callOp c a).2 = .ok v)
      ∧ (∀ err, delegateCall c.callWithRequestRepository a = .error err →
          (callOp c a).2 = .error (.delegateError err))) := by
  constructor
  · intro username missing h
    have hcall : callOp c a =
        ([.checkPrivilegesCalled (opActions c a),
          .auditSuccess username (opKind a) (opTypes a) a,
          .invokeInternalRepository],
          (delegateCall c.internalRepository a).mapError
            GatewayError.delegateError) := by
      rw [callOp_eq]
      exact execute_ok c (opTypeOrTypes a) (opKind a) a (fun r => delegateCall r a)
        ⟨.AUTHORIZED, username, missing⟩ h
    refine ⟨by rw [hcall], fun v hv => ?_, fun err herr => ?_⟩
    · rw [hcall]
      simp [hv, Except.mapError]
    · rw [hcall]
      simp [herr, Except.mapError]
  · intro username missing h
    have hcall : callOp c a =
        ([.checkPrivilegesCalled (opActions c a),
          .invokeCallWithRequestRepository],
          (delegateCall c.callWithRequestRepository a).mapError
            GatewayError.delegateError) := by
      rw [callOp_eq]
      exact execute_ok c (opTypeOrTypes a) (opKind a) a (fun r => delegateCall r a)
        ⟨.LEGACY, username, missing⟩ h
    refine ⟨by rw [hcall], fun v hv => ?_, fun err herr => ?_⟩
    · rw [hcall]
      simp [hv, Except.mapError]
    · rw [hcall]
      simp [herr, Except.mapError]

theorem delegate_passthrough_witness :
    (callOp (failingClient (fun _ => .ok ⟨.AUTHORIZED, "erin", []⟩))
        (.update (.str "dashboard") "3" "attrs" "{}")).2
      = .error (.delegateError "fail-update")
    ∧ (callOp (demoClient (fun _ => .ok ⟨.LEGACY, "frank", []⟩))
        (.find ⟨.str "search", "q"⟩)).2 = .ok "legacy-find" := by
  constructor
  · exact ((delegate_passthrough
      (failingClient (fun _ => .ok ⟨.AUTHORIZED, "erin", []⟩))
      (.update (.str "dashboard") "3" "attrs" "{}")).1 "erin" [] rfl).2.2
      "fail-update" rfl
  · exact ((delegate_passthrough
      (demoClient (fun _ => .ok ⟨.LEGACY, "frank", []⟩))
      (.find ⟨.str "search", "q"⟩)).2 "frank" [] rfl).2.1 "legacy-find" rfl

/-- C9: a `find` whose options carry no type filter (`options.type` reads as
`undefined`) is handled gracefully as the single type `undefined`: the call
is exactly the normal `_execute` sequence on the singleton `undefined` type,
and the checker is invoked with exactly the one action derived from the
undefined type. -/
theorem find_undefined_type_single_action (c : SecureSavedObjectsClient ε ρ)
    (options : FindOptions) (h : options.type = .undef) :
    c.find options = execute c (.single .undef) "find" (.find options)
        (fun repository => repository.find options)
    ∧ (c.find options).1.head?
      = some (.checkPrivilegesCalled [c.getSavedObjectAction (.undef) "find"]) := by
  have h1 : c.find options = execute c (.single .undef) "find" (.find options)
      (fun repository => repository.find options) := by
    show execute c (.single options.type) "find" (.find options)
        (fun repository => repository.find options) = _
    rw [h]
  refine ⟨h1, ?_⟩
  rw [h1]
  exact execute_head c (.single .undef) "find" (.find options)
    (fun repository => repository.find options)

theorem find_undefined_type_single_action_witness :
    ((demoClient (fun _ => .ok ⟨.AUTHORIZED, "gail", []⟩)).find ⟨.undef, "q"⟩).1.head?
      = some (.checkPrivilegesCalled ["action:saved_objects//find"]) := by
  have h := find_undefined_type_single_action
    (demoClient (fun _ => .ok ⟨.AUTHORIZED, "gail", []⟩)) ⟨.undef, "q"⟩ rfl
  rw [h.2]
  rfl

/-- C10: a bulk operation on the empty object collection (the default for a
no-argument `bulkGet`, or an explicit empty `bulkCreate` input) does not
short-circuit: the call is the normal `_execute` sequence on the empty type
list, the checker is invoked exactly once, with the empty action list, and
the outcome branch proceeds as for any other call. -/
theorem bulk_empty_still_checks (c : SecureSavedObjectsClient ε ρ)
    (options : String) :
    c.bulkGet [] options = execute c (.array []) "bulk_get"
        (.bulkGet [] options)
        (fun repository => repository.bulkGet [] options)
    ∧ (c.bulkGet [] options).1.countP Event.isCheck = 1
    ∧ (c.bulkGet [] options).1.head? = some (.checkPrivilegesCalled [])
    ∧ c.bulkCreate [] options = execute c (.array []) "bulk_create"
        (.bulkCreate [] options)
        (fun repository => repository.bulkCreate [] options)
    ∧ (c.bulkCreate [] options).1.countP Event.isCheck = 1
    ∧ (c.bulkCreate [] options).1.head? = some (.checkPrivilegesCalled []) := by
  refine ⟨rfl, ?_, ?_, rfl, ?_, ?_⟩
  · exact execute_countCheck c (.array []) "bulk_get" (.bulkGet [] options)
      (fun repository => repository.bulkGet [] options)
  · exact execute_head c (.array []) "bulk_get" (.bulkGet [] options)
      (fun repository => repository.bulkGet [] options)
  · exact execute_countCheck c (.array []) "bulk_create" (.bulkCreate [] options)
      (fun repository => repository.bulkCreate [] options)
  · exact execute_head c (.array []) "bulk_create" (.bulkCreate [] options)
      (fun repository => repository.bulkCreate [] options)

end SecureSavedObjects
